import Mathlib

/-!
# Terminal-mode shim (`src/CShims/termios_shim.c`)

A shallow embedding of the four C functions of the shim

* `stk_enable_raw_mode`, `stk_restore_mode` (sharing the statics `stk_orig`, `stk_saved`),
* `stk_get_winsize`,
* `stk_set_nonblocking`,

over an explicit model of the operating environment (`World`): the attribute record,
window geometry and status-flag word of every descriptor, an oracle that decides which
device calls succeed, and the chronological trace of the device calls issued so far.
-/

namespace TermiosShim

/-! ## Data model -/

/-- The device attribute record `struct termios` of `<termios.h>`: four flag words, the line
discipline, the control-character table and the two line speeds.  Flag words are unsigned
machine words, represented by the natural number they denote. -/
structure Termios where
  c_iflag : Nat
  c_oflag : Nat
  c_cflag : Nat
  c_lflag : Nat
  c_line : Nat
  c_cc : List Nat
  c_ispeed : Nat
  c_ospeed : Nat
deriving DecidableEq, Repr

/-- The geometry record `struct winsize` of `<sys/ioctl.h>`; its fields are `unsigned short`. -/
structure Winsize where
  ws_row : Nat
  ws_col : Nat
  ws_xpixel : Nat
  ws_ypixel : Nat
deriving DecidableEq, Repr

/-- The constants of the system headers (`<termios.h>`, `<fcntl.h>`) that the shim and
`cfmakeraw` use.  They are not part of the repository and their values differ between
platforms, so they are a parameter of the embedding. -/
structure Consts where
  IGNBRK : Nat
  BRKINT : Nat
  PARMRK : Nat
  ISTRIP : Nat
  INLCR : Nat
  IGNCR : Nat
  ICRNL : Nat
  IXON : Nat
  OPOST : Nat
  ECHO : Nat
  ECHONL : Nat
  ICANON : Nat
  ISIG : Nat
  IEXTEN : Nat
  CSIZE : Nat
  PARENB : Nat
  CS8 : Nat
  VMIN : Nat
  VTIME : Nat
  NCCS : Nat
  O_NONBLOCK : Nat
deriving DecidableEq, Repr

/-- The header constants of Linux (asm-generic `termbits.h`, `fcntl.h`). -/
def linux : Consts where
  IGNBRK := 0o1
  BRKINT := 0o2
  PARMRK := 0o10
  ISTRIP := 0o40
  INLCR := 0o100
  IGNCR := 0o200
  ICRNL := 0o400
  IXON := 0o2000
  OPOST := 0o1
  ECHO := 0o10
  ECHONL := 0o100
  ICANON := 0o2
  ISIG := 0o1
  IEXTEN := 0o100000
  CSIZE := 0o60
  PARENB := 0o400
  CS8 := 0o60
  VMIN := 6
  VTIME := 5
  NCCS := 32
  O_NONBLOCK := 0o4000

/-- The C expression `x & ~m` on an unsigned word `x` (or a non-negative `int`): the bits of
`x` that are not in the mask `m`.  Written with exclusive-or so that it evaluates on
numerals; `testBit_andNot` states that it is the bitwise and-not. -/
def andNot (x m : Nat) : Nat := x ^^^ (x &&& m)

/-- Modelled from the spec: `cfmakeraw` is a routine of the C library and is missing from the
repository, as are the header constants it works on.  The spec describes the raw profile as
disabling canonical input, input echo and signal-generating control characters and all output
post-processing; the definition is the one termios(3) documents for `cfmakeraw`, which makes
exactly these changes and also clears input translation and parity and selects 8-bit
characters with a one-byte, untimed read. -/
def cfmakeraw (K : Consts) (t : Termios) : Termios :=
  { t with
    c_iflag := andNot t.c_iflag
      (K.IGNBRK ||| K.BRKINT ||| K.PARMRK ||| K.ISTRIP ||| K.INLCR ||| K.IGNCR ||| K.ICRNL ||| K.IXON)
    c_oflag := andNot t.c_oflag K.OPOST
    c_lflag := andNot t.c_lflag (K.ECHO ||| K.ECHONL ||| K.ICANON ||| K.ISIG ||| K.IEXTEN)
    c_cflag := andNot t.c_cflag (K.CSIZE ||| K.PARENB) ||| K.CS8
    c_cc := (t.c_cc.set K.VMIN 1).set K.VTIME 0 }

/-! ## The operating environment -/

/-- A device call issued by the shim, with its arguments. -/
inductive Call where
  | tcgetattr (fd : Int)
  | tcsetattr (fd : Int) (t : Termios)
  | tiocgwinsz (fd : Int)
  | getfl (fd : Int)
  | setfl (fd : Int) (flags : Nat)
deriving DecidableEq, Repr

/-- The environment the shim runs against.  `attrs`, `winsize` and `flags` give the state of
the device behind each descriptor; `ok n c` tells whether device call `c`, issued as the
`n`-th call of the run, succeeds; `trace` lists the calls issued so far, oldest first, each
with its outcome. -/
structure World where
  attrs : Int → Termios
  winsize : Int → Winsize
  flags : Int → Nat
  ok : Nat → Call → Bool
  trace : List (Call × Bool)

/-- The call `tcgetattr(fd, &t)`: on success the current attribute record of `fd`, on failure
(`-1` in C) nothing. -/
def tcgetattr (w : World) (fd : Int) : Option Termios × World :=
  if w.ok w.trace.length (Call.tcgetattr fd) then
    (some (w.attrs fd), { w with trace := w.trace ++ [(Call.tcgetattr fd, true)] })
  else
    (none, { w with trace := w.trace ++ [(Call.tcgetattr fd, false)] })

/-- The call `tcsetattr(fd, TCSANOW, &t)`: on success the device takes the record `t` and the
call returns `0`; on failure the device is left as it was and the call returns `-1`. -/
def tcsetattr (w : World) (fd : Int) (t : Termios) : Int × World :=
  if w.ok w.trace.length (Call.tcsetattr fd t) then
    (0, { w with attrs := Function.update w.attrs fd t,
                 trace := w.trace ++ [(Call.tcsetattr fd t, true)] })
  else
    (-1, { w with trace := w.trace ++ [(Call.tcsetattr fd t, false)] })

/-- The call `ioctl(fd, TIOCGWINSZ, &ws)`: on success the geometry the driver reports, on
failure (`-1` in C) nothing. -/
def ioctl_TIOCGWINSZ (w : World) (fd : Int) : Option Winsize × World :=
  if w.ok w.trace.length (Call.tiocgwinsz fd) then
    (some (w.winsize fd), { w with trace := w.trace ++ [(Call.tiocgwinsz fd, true)] })
  else
    (none, { w with trace := w.trace ++ [(Call.tiocgwinsz fd, false)] })

/-- The call `fcntl(fd, F_GETFL, 0)`: on success the status-flag word, which is never
negative; on failure (`-1` in C) nothing. -/
def fcntl_F_GETFL (w : World) (fd : Int) : Option Nat × World :=
  if w.ok w.trace.length (Call.getfl fd) then
    (some (w.flags fd), { w with trace := w.trace ++ [(Call.getfl fd, true)] })
  else
    (none, { w with trace := w.trace ++ [(Call.getfl fd, false)] })

/-- The call `fcntl(fd, F_SETFL, flags)`: on success the descriptor takes the flag word and the
call returns `0`; on failure nothing changes and the call returns `-1`. -/
def fcntl_F_SETFL (w : World) (fd : Int) (flags : Nat) : Int × World :=
  if w.ok w.trace.length (Call.setfl fd flags) then
    (0, { w with flags := Function.update w.flags fd flags,
                 trace := w.trace ++ [(Call.setfl fd flags, true)] })
  else
    (-1, { w with trace := w.trace ++ [(Call.setfl fd flags, false)] })

/-! ## The shim -/

/-- The two file-scope statics of the shim: `stk_orig` and `stk_saved`. -/
structure Module where
  stk_orig : Termios
  stk_saved : Int
deriving DecidableEq, Repr

/-- The statics at program start: `stk_saved = 0` and a zero-filled `stk_orig`. -/
def Module.init (K : Consts) : Module where
  stk_orig :=
    { c_iflag := 0, c_oflag := 0, c_cflag := 0, c_lflag := 0, c_line := 0,
      c_cc := List.replicate K.NCCS 0, c_ispeed := 0, c_ospeed := 0 }
  stk_saved := 0

/-- The function `stk_enable_raw_mode(fd)`. -/
def stk_enable_raw_mode (K : Consts) (m : Module) (w : World) (fd : Int) :
    Int × Module × World :=
  match tcgetattr w fd with
  | (none, w1) => (-1, m, w1)
  | (some t, w1) =>
    let m1 : Module := if m.stk_saved = 0 then { stk_orig := t, stk_saved := 1 } else m
    let t1 := cfmakeraw K t
    let t2 := { t1 with c_oflag := andNot t1.c_oflag K.OPOST }
    match tcsetattr w1 fd t2 with
    | (r, w2) => if r = -1 then (-1, m1, w2) else (0, m1, w2)

/-- The function `stk_restore_mode(fd)`. -/
def stk_restore_mode (m : Module) (w : World) (fd : Int) : Int × Module × World :=
  if m.stk_saved = 0 then (0, m, w)
  else
    match tcsetattr w fd m.stk_orig with
    | (r, w1) => (r, m, w1)

/-- The function `stk_get_winsize(fd, cols, rows)`.  An out-parameter is `none` for a null
pointer and `some v` for a pointer to an `int` that holds `v`; the result carries the
contents of the two pointees after the call. -/
def stk_get_winsize (w : World) (fd : Int) (cols rows : Option Int) :
    Int × Option Int × Option Int × World :=
  match ioctl_TIOCGWINSZ w fd with
  | (none, w1) => (-1, cols, rows, w1)
  | (some ws, w1) =>
    (0, cols.map (fun _ => (ws.ws_col : Int)), rows.map (fun _ => (ws.ws_row : Int)), w1)

/-- The function `stk_set_nonblocking(fd, enable)`. -/
def stk_set_nonblocking (K : Consts) (w : World) (fd : Int) (enable : Int) : Int × World :=
  match fcntl_F_GETFL w fd with
  | (none, w1) => (-1, w1)
  | (some flags, w1) =>
    let flags1 := if enable ≠ 0 then flags ||| K.O_NONBLOCK else andNot flags K.O_NONBLOCK
    fcntl_F_SETFL w1 fd flags1

/-! ## Runs of calls -/

/-- The statics together with the environment. -/
structure State where
  module : Module
  world : World

/-- One call of the shim's interface, with its arguments. -/
inductive Op where
  | enable (fd : Int)
  | restore (fd : Int)
  | winsize (fd : Int) (cols rows : Option Int)
  | nonblocking (fd : Int) (enable : Int)
deriving DecidableEq, Repr

/-- The state after one call. -/
def step (K : Consts) (s : State) : Op → State
  | Op.enable fd =>
    let r := stk_enable_raw_mode K s.module s.world fd
    { module := r.2.1, world := r.2.2 }
  | Op.restore fd =>
    let r := stk_restore_mode s.module s.world fd
    { module := r.2.1, world := r.2.2 }
  | Op.winsize fd cols rows =>
    { s with world := (stk_get_winsize s.world fd cols rows).2.2.2 }
  | Op.nonblocking fd enable =>
    { s with world := (stk_set_nonblocking K s.world fd enable).2 }

/-- The state after a sequence of calls, made in order. -/
def run (K : Consts) (s : State) (ops : List Op) : State :=
  ops.foldl (step K) s

/-- Another party changes the attribute record of the device behind `fd` to `t`. -/
def externalSet (s : State) (fd : Int) (t : Termios) : State :=
  { s with world := { s.world with attrs := Function.update s.world.attrs fd t } }

/-- A sample attribute record: a cooked Linux terminal. -/
def cooked : Termios where
  c_iflag := 0o42400
  c_oflag := 0o5
  c_cflag := 0o277
  c_lflag := 0o105073
  c_line := 0
  c_cc := [3, 28, 127, 21, 4, 0, 1, 0, 17, 19, 26, 0, 18, 15, 23, 22, 0, 0, 0, 0, 0, 0, 0, 0,
    0, 0, 0, 0, 0, 0, 0, 0]
  c_ispeed := 15
  c_ospeed := 15

/-- A sample environment in which every device call succeeds: every descriptor is a cooked
terminal of 80 columns and 24 rows opened read-write. -/
def calm : World where
  attrs := fun _ => cooked
  winsize := fun _ => { ws_row := 24, ws_col := 80, ws_xpixel := 0, ws_ypixel := 0 }
  flags := fun _ => 2
  ok := fun _ _ => true
  trace := []

/-- A sample environment in which every device call fails, as on a closed descriptor. -/
def detached : World := { calm with ok := fun _ _ => false }

/-- A sample environment in which attribute reads succeed and attribute writes fail. -/
def readOnly : World :=
  { calm with
    ok := fun _ c =>
      match c with
      | Call.tcsetattr _ _ => false
      | _ => true }

/-- A sample environment whose terminals report no geometry: a pseudo-terminal whose size was
never set answers the geometry query with zero columns and zero rows. -/
def unsized : World :=
  { calm with winsize := fun _ => { ws_row := 0, ws_col := 0, ws_xpixel := 0, ws_ypixel := 0 } }

/-- A sample environment in which the second device call of the run fails and every other
one succeeds. -/
def flaky : World := { calm with ok := fun n _ => n != 1 }

/-- A sample attribute record that differs from `cooked`: the same terminal without echo. -/
def quiet : Termios := { cooked with c_lflag := 0o105063 }

/-- The re-entry run: a first session on `fd1` (enable, then restore), after which the device
behind `fd2` holds the record `B` (set by another party; `fd2` may be `fd1` itself or a
second device), then a second session on `fd2` (enable, then restore). -/
def reentry (K : Consts) (m : Module) (w : World) (fd1 fd2 : Int) (B : Termios) : State :=
  run K (externalSet (run K ⟨m, w⟩ [Op.enable fd1, Op.restore fd1]) fd2 B)
    [Op.enable fd2, Op.restore fd2]

/-- The device calls issued between the environment `w` and the later environment `w1`. -/
def newCalls (w w1 : World) : List (Call × Bool) := w1.trace.drop w.trace.length

/-- The fail-stop discipline of one call of the shim that returned `r` after issuing the
device calls `l`: the result is `0` or `-1`, it is `-1` exactly when one of the device calls
failed, and every device call but the last one succeeded. -/
def FailStop (r : Int) (l : List (Call × Bool)) : Prop :=
  (r = 0 ∨ r = -1) ∧ (r = -1 ↔ ∃ c, (c, false) ∈ l) ∧ ∀ p ∈ l.dropLast, p.2 = true

end TermiosShim

namespace TermiosShim

/-! ## Bit-level facts -/

theorem testBit_andNot (x m i : Nat) :
    (andNot x m).testBit i = (x.testBit i && !m.testBit i) := by
  unfold andNot
  rw [Nat.testBit_xor, Nat.testBit_and]
  cases x.testBit i <;> cases m.testBit i <;> rfl

theorem andNot_and_of_sub (x m k : Nat) (h : ∀ i, k.testBit i = true → m.testBit i = true) :
    andNot x m &&& k = 0 := by
  apply Nat.eq_of_testBit_eq
  intro i
  rw [Nat.testBit_and, testBit_andNot, Nat.zero_testBit]
  have hi := h i
  cases hx : x.testBit i <;> cases hm : m.testBit i <;> cases hk : k.testBit i <;> simp_all

theorem andNot_and_self (x m : Nat) : andNot x m &&& m = 0 :=
  andNot_and_of_sub x m m (fun _ h => h)

theorem andNot_andNot (x m : Nat) : andNot (andNot x m) m = andNot x m := by
  apply Nat.eq_of_testBit_eq
  intro i
  simp only [testBit_andNot]
  cases x.testBit i <;> cases m.testBit i <;> rfl

theorem andNot_or_self (x m : Nat) : andNot (x ||| m) m = andNot x m := by
  apply Nat.eq_of_testBit_eq
  intro i
  simp only [testBit_andNot, Nat.testBit_or]
  cases x.testBit i <;> cases m.testBit i <;> rfl

theorem andNot_of_and_eq_zero (x m : Nat) (h : x &&& m = 0) : andNot x m = x := by
  unfold andNot
  rw [h]
  simp

theorem or_and_self (x m : Nat) : (x ||| m) &&& m = m := by
  apply Nat.eq_of_testBit_eq
  intro i
  simp only [Nat.testBit_and, Nat.testBit_or]
  cases x.testBit i <;> cases m.testBit i <;> rfl

theorem or_or_self (x m : Nat) : (x ||| m) ||| m = x ||| m := by
  apply Nat.eq_of_testBit_eq
  intro i
  simp only [Nat.testBit_or]
  cases x.testBit i <;> cases m.testBit i <;> rfl

/-- The explicit `t.c_oflag &= ~(OPOST)` after `cfmakeraw` finds the bit already cleared. -/
theorem cfmakeraw_opost (K : Consts) (t : Termios) :
    ({ cfmakeraw K t with c_oflag := andNot (cfmakeraw K t).c_oflag K.OPOST } : Termios)
      = cfmakeraw K t := by
  simp [cfmakeraw, andNot_andNot]

/-! ## The device calls, case by case -/

theorem newCalls_append (w w1 : World) (l : List (Call × Bool))
    (h : w1.trace = w.trace ++ l) : newCalls w w1 = l := by
  simp [newCalls, h]

theorem enable_read_fails (K : Consts) (m : Module) (w : World) (fd : Int)
    (h : w.ok w.trace.length (Call.tcgetattr fd) = false) :
    stk_enable_raw_mode K m w fd
      = (-1, m, { w with trace := w.trace ++ [(Call.tcgetattr fd, false)] }) := by
  simp [stk_enable_raw_mode, tcgetattr, h]

theorem enable_read_ok (K : Consts) (m : Module) (w : World) (fd : Int)
    (h : w.ok w.trace.length (Call.tcgetattr fd) = true) :
    stk_enable_raw_mode K m w fd
      = (let w1 : World := { w with trace := w.trace ++ [(Call.tcgetattr fd, true)] }
         let m1 : Module :=
           if m.stk_saved = 0 then { stk_orig := w.attrs fd, stk_saved := 1 } else m
         let r := tcsetattr w1 fd (cfmakeraw K (w.attrs fd))
         (if r.1 = -1 then -1 else 0, m1, r.2)) := by
  simp only [stk_enable_raw_mode, tcgetattr, h, if_true, cfmakeraw_opost]
  split <;> rfl

theorem nonblocking_read_ok (K : Consts) (w : World) (fd : Int) (enable : Int)
    (h : w.ok w.trace.length (Call.getfl fd) = true) :
    stk_set_nonblocking K w fd enable
      = fcntl_F_SETFL { w with trace := w.trace ++ [(Call.getfl fd, true)] } fd
          (if enable ≠ 0 then w.flags fd ||| K.O_NONBLOCK
            else andNot (w.flags fd) K.O_NONBLOCK) := by
  simp [stk_set_nonblocking, fcntl_F_GETFL, h]

theorem nonblocking_all_ok (K : Consts) (w : World) (fd : Int) (enable : Int)
    (h : ∀ n c, w.ok n c = true) :
    stk_set_nonblocking K w fd enable
      = (0, { w with
              flags := Function.update w.flags fd
                (if enable ≠ 0 then w.flags fd ||| K.O_NONBLOCK
                  else andNot (w.flags fd) K.O_NONBLOCK)
              trace := w.trace ++ [(Call.getfl fd, true),
                (Call.setfl fd (if enable ≠ 0 then w.flags fd ||| K.O_NONBLOCK
                  else andNot (w.flags fd) K.O_NONBLOCK), true)] }) := by
  rw [nonblocking_read_ok K w fd enable (h _ _)]
  simp [fcntl_F_SETFL, h]

theorem nonblocking_trace (K : Consts) (w : World) (fd : Int) (enable : Int) :
    (stk_set_nonblocking K w fd enable).2.trace
      = w.trace ++ newCalls w (stk_set_nonblocking K w fd enable).2 := by
  cases h : w.ok w.trace.length (Call.getfl fd)
  · simp [stk_set_nonblocking, fcntl_F_GETFL, h, newCalls]
  · rw [nonblocking_read_ok K w fd enable h]
    generalize (if enable ≠ 0 then w.flags fd ||| K.O_NONBLOCK
      else andNot (w.flags fd) K.O_NONBLOCK) = word
    cases h2 : w.ok (w.trace.length + 1) (Call.setfl fd word) <;>
      simp [fcntl_F_SETFL, h2, newCalls]

/-! ## Facts about runs -/

theorem run_cons (K : Consts) (s : State) (op : Op) (ops : List Op) :
    run K s (op :: ops) = run K (step K s op) ops := rfl

theorem run_append (K : Consts) (s : State) (ops ops1 : List Op) :
    run K s (ops ++ ops1) = run K (run K s ops) ops1 := by
  simp [run, List.foldl_append]

theorem tcsetattr_ok (w : World) (fd : Int) (t : Termios) : (tcsetattr w fd t).2.ok = w.ok := by
  unfold tcsetattr
  split <;> rfl

theorem setfl_ok (w : World) (fd : Int) (x : Nat) : (fcntl_F_SETFL w fd x).2.ok = w.ok := by
  unfold fcntl_F_SETFL
  split <;> rfl

theorem enable_ok (K : Consts) (m : Module) (w : World) (fd : Int) :
    (stk_enable_raw_mode K m w fd).2.2.ok = w.ok := by
  cases h : w.ok w.trace.length (Call.tcgetattr fd)
  · rw [enable_read_fails K m w fd h]
  · rw [enable_read_ok K m w fd h]
    exact tcsetattr_ok _ _ _

theorem restore_ok (m : Module) (w : World) (fd : Int) :
    (stk_restore_mode m w fd).2.2.ok = w.ok := by
  unfold stk_restore_mode
  split
  · rfl
  · exact tcsetattr_ok _ _ _

theorem winsize_ok (w : World) (fd : Int) (cols rows : Option Int) :
    (stk_get_winsize w fd cols rows).2.2.2.ok = w.ok := by
  cases h : w.ok w.trace.length (Call.tiocgwinsz fd) <;>
    simp [stk_get_winsize, ioctl_TIOCGWINSZ, h]

theorem nonblocking_ok (K : Consts) (w : World) (fd : Int) (enable : Int) :
    (stk_set_nonblocking K w fd enable).2.ok = w.ok := by
  cases h : w.ok w.trace.length (Call.getfl fd)
  · simp [stk_set_nonblocking, fcntl_F_GETFL, h]
  · rw [nonblocking_read_ok K w fd enable h]
    exact setfl_ok _ _ _

/-- No call of the shim changes which device calls will succeed. -/
theorem step_ok (K : Consts) (s : State) (op : Op) : (step K s op).world.ok = s.world.ok := by
  cases op with
  | enable fd => exact enable_ok K _ _ fd
  | restore fd => exact restore_ok _ _ fd
  | winsize fd cols rows => exact winsize_ok _ fd cols rows
  | nonblocking fd enable => exact nonblocking_ok K _ fd enable

theorem run_ok (K : Consts) (s : State) (ops : List Op) : (run K s ops).world.ok = s.world.ok := by
  induction ops generalizing s with
  | nil => rfl
  | cons op ops ih => rw [run_cons, ih, step_ok]

/-- Once a baseline is saved, no call of the shim touches the statics. -/
theorem step_module_of_saved (K : Consts) (s : State) (op : Op) (h : s.module.stk_saved ≠ 0) :
    (step K s op).module = s.module := by
  cases op with
  | enable fd =>
    show (stk_enable_raw_mode K s.module s.world fd).2.1 = s.module
    cases h1 : s.world.ok s.world.trace.length (Call.tcgetattr fd)
    · rw [enable_read_fails K _ _ fd h1]
    · rw [enable_read_ok K _ _ fd h1]
      simp [h]
  | restore fd =>
    show (stk_restore_mode s.module s.world fd).2.1 = s.module
    simp [stk_restore_mode, h]
  | winsize fd cols rows => rfl
  | nonblocking fd enable => rfl

theorem run_module_of_saved (K : Consts) (s : State) (ops : List Op)
    (h : s.module.stk_saved ≠ 0) : (run K s ops).module = s.module := by
  induction ops generalizing s with
  | nil => rfl
  | cons op ops ih =>
    have e := step_module_of_saved K s op h
    rw [run_cons, ih (step K s op) (by rw [e]; exact h), e]

/-- The first successful attribute read of `stk_enable_raw_mode` captures the record read. -/
theorem enable_captures (K : Consts) (m : Module) (w : World) (fd : Int)
    (hm : m.stk_saved = 0) (h : w.ok w.trace.length (Call.tcgetattr fd) = true) :
    (stk_enable_raw_mode K m w fd).2.1 = { stk_orig := w.attrs fd, stk_saved := 1 } := by
  rw [enable_read_ok K m w fd h]
  simp [hm]

/-- A successful restore with a saved baseline leaves the device at the baseline. -/
theorem restore_applies (m : Module) (w : World) (fd : Int) (hm : m.stk_saved ≠ 0)
    (h : w.ok w.trace.length (Call.tcsetattr fd m.stk_orig) = true) :
    (stk_restore_mode m w fd).1 = 0 ∧ (stk_restore_mode m w fd).2.2.attrs fd = m.stk_orig := by
  simp [stk_restore_mode, hm, tcsetattr, h]

/-- The device calls of one call of the shim are appended to the trace, and the statics
change only if one of them is a successful attribute read. -/
theorem step_trace (K : Consts) (s : State) (op : Op) :
    ∃ l, (step K s op).world.trace = s.world.trace ++ l
      ∧ ((∀ f, (Call.tcgetattr f, true) ∉ l) → (step K s op).module = s.module) := by
  cases op with
  | enable fd =>
    show ∃ l, (stk_enable_raw_mode K s.module s.world fd).2.2.trace = s.world.trace ++ l
      ∧ ((∀ f, (Call.tcgetattr f, true) ∉ l) →
          (stk_enable_raw_mode K s.module s.world fd).2.1 = s.module)
    cases h1 : s.world.ok s.world.trace.length (Call.tcgetattr fd)
    · rw [enable_read_fails K _ _ fd h1]
      exact ⟨[(Call.tcgetattr fd, false)], rfl, fun _ => rfl⟩
    · rw [enable_read_ok K _ _ fd h1]
      refine ⟨[(Call.tcgetattr fd, true), (Call.tcsetattr fd (cfmakeraw K (s.world.attrs fd)),
        s.world.ok (s.world.trace.length + 1)
          (Call.tcsetattr fd (cfmakeraw K (s.world.attrs fd))))], ?_, ?_⟩
      · cases h2 : s.world.ok (s.world.trace.length + 1)
          (Call.tcsetattr fd (cfmakeraw K (s.world.attrs fd))) <;> simp [tcsetattr, h2]
      · intro hno
        exact absurd (List.mem_cons_self _ _) (hno fd)
  | restore fd =>
    show ∃ l, (stk_restore_mode s.module s.world fd).2.2.trace = s.world.trace ++ l
      ∧ ((∀ f, (Call.tcgetattr f, true) ∉ l) →
          (stk_restore_mode s.module s.world fd).2.1 = s.module)
    by_cases hs : s.module.stk_saved = 0
    · exact ⟨[], by simp [stk_restore_mode, hs], fun _ => by simp [stk_restore_mode, hs]⟩
    · refine ⟨[(Call.tcsetattr fd s.module.stk_orig,
        s.world.ok s.world.trace.length (Call.tcsetattr fd s.module.stk_orig))], ?_, ?_⟩
      · cases h2 : s.world.ok s.world.trace.length (Call.tcsetattr fd s.module.stk_orig) <;>
          simp [stk_restore_mode, hs, tcsetattr, h2]
      · intro _
        simp [stk_restore_mode, hs]
  | winsize fd cols rows =>
    refine ⟨[(Call.tiocgwinsz fd, s.world.ok s.world.trace.length (Call.tiocgwinsz fd))],
      ?_, fun _ => rfl⟩
    show (stk_get_winsize s.world fd cols rows).2.2.2.trace = _
    cases h : s.world.ok s.world.trace.length (Call.tiocgwinsz fd) <;>
      simp [stk_get_winsize, ioctl_TIOCGWINSZ, h]
  | nonblocking fd enable =>
    refine ⟨newCalls s.world (stk_set_nonblocking K s.world fd enable).2, ?_, fun _ => rfl⟩
    exact (nonblocking_trace K s.world fd enable)

theorem run_trace (K : Consts) (s : State) (ops : List Op) :
    ∃ l, (run K s ops).world.trace = s.world.trace ++ l
      ∧ ((∀ f, (Call.tcgetattr f, true) ∉ l) → (run K s ops).module = s.module) := by
  induction ops generalizing s with
  | nil => exact ⟨[], by simp [run], fun _ => rfl⟩
  | cons op ops ih =>
    obtain ⟨l1, ht1, hm1⟩ := step_trace K s op
    obtain ⟨l2, ht2, hm2⟩ := ih (step K s op)
    refine ⟨l1 ++ l2, ?_, ?_⟩
    · rw [run_cons, ht2, ht1, List.append_assoc]
    · intro hno
      rw [run_cons, hm2 (fun f hf => hno f (List.mem_append_right _ hf)),
        hm1 (fun f hf => hno f (List.mem_append_left _ hf))]

/-! ## Properties of the shim -/

/-- C3 (no-op restore on absent baseline): for every descriptor and every environment, when
`stk_saved` is `0` the call `stk_restore_mode(fd)` returns `0` and leaves both the statics and
the whole environment as they were: no device call is added to the trace and no attribute
record changes. -/
theorem restore_noop_when_absent (m : Module) (w : World) (fd : Int)
    (h : m.stk_saved = 0) :
    stk_restore_mode m w fd = (0, m, w)
      ∧ newCalls w (stk_restore_mode m w fd).2.2 = []
      ∧ (stk_restore_mode m w fd).2.2.attrs = w.attrs := by
  have e : stk_restore_mode m w fd = (0, m, w) := by simp [stk_restore_mode, h]
  refine ⟨e, ?_, ?_⟩
  · rw [e]
    simp [newCalls]
  · rw [e]

theorem restore_noop_when_absent_witness :
    (Module.init linux).stk_saved = 0
      ∧ (stk_restore_mode (Module.init linux) calm 3 = (0, Module.init linux, calm)
        ∧ newCalls calm (stk_restore_mode (Module.init linux) calm 3).2.2 = []
        ∧ (stk_restore_mode (Module.init linux) calm 3).2.2.attrs = calm.attrs) :=
  ⟨rfl, restore_noop_when_absent (Module.init linux) calm 3 rfl⟩

/-- C5 (read-failure atomicity of enable): for every state of the statics and every
environment, if the attribute read inside `stk_enable_raw_mode` fails, the call returns `-1`,
the statics are exactly what they were, the only device call issued is the failed read (so
no attribute write is issued), and no attribute record changes. -/
theorem enable_read_failure_atomic (K : Consts) (m : Module) (w : World) (fd : Int)
    (h : w.ok w.trace.length (Call.tcgetattr fd) = false) :
    (stk_enable_raw_mode K m w fd).1 = -1
      ∧ (stk_enable_raw_mode K m w fd).2.1 = m
      ∧ newCalls w (stk_enable_raw_mode K m w fd).2.2 = [(Call.tcgetattr fd, false)]
      ∧ (stk_enable_raw_mode K m w fd).2.2.attrs = w.attrs := by
  rw [enable_read_fails K m w fd h]
  simp [newCalls]

theorem enable_read_failure_atomic_witness :
    detached.ok detached.trace.length (Call.tcgetattr 0) = false
      ∧ ((stk_enable_raw_mode linux (Module.init linux) detached 0).1 = -1
        ∧ (stk_enable_raw_mode linux (Module.init linux) detached 0).2.1 = Module.init linux
        ∧ newCalls detached (stk_enable_raw_mode linux (Module.init linux) detached 0).2.2
            = [(Call.tcgetattr 0, false)]
        ∧ (stk_enable_raw_mode linux (Module.init linux) detached 0).2.2.attrs
            = detached.attrs) :=
  ⟨rfl, enable_read_failure_atomic linux (Module.init linux) detached 0 rfl⟩

/-- C6 (raw profile): whenever the attribute read of `stk_enable_raw_mode` succeeds, the call
issues exactly one attribute write after it, and the record it writes is built from the
record just read from the device (whatever the statics hold): it is `cfmakeraw` of that
record with `OPOST` cleared in the output flags, it has `ICANON`, `ECHO` and `ISIG` cleared
in the local flags and `OPOST` cleared in the output flags, and it is the same record as
`cfmakeraw` alone gives, so the explicit clearing of `OPOST` changes nothing further. -/
theorem raw_profile_applied (K : Consts) (m : Module) (w : World) (fd : Int)
    (h : w.ok w.trace.length (Call.tcgetattr fd) = true) :
    ∃ applied b,
      newCalls w (stk_enable_raw_mode K m w fd).2.2
          = [(Call.tcgetattr fd, true), (Call.tcsetattr fd applied, b)]
        ∧ applied = { cfmakeraw K (w.attrs fd) with
                      c_oflag := andNot (cfmakeraw K (w.attrs fd)).c_oflag K.OPOST }
        ∧ applied.c_lflag &&& K.ICANON = 0
        ∧ applied.c_lflag &&& K.ECHO = 0
        ∧ applied.c_lflag &&& K.ISIG = 0
        ∧ applied.c_oflag &&& K.OPOST = 0
        ∧ applied = cfmakeraw K (w.attrs fd) := by
  refine ⟨cfmakeraw K (w.attrs fd),
    w.ok (w.trace.length + 1) (Call.tcsetattr fd (cfmakeraw K (w.attrs fd))), ?_,
    (cfmakeraw_opost K (w.attrs fd)).symm, ?_, ?_, ?_, ?_, rfl⟩
  · rw [enable_read_ok K m w fd h]
    apply newCalls_append
    simp only [tcsetattr, List.length_append, List.length_singleton]
    split <;> simp_all
  · apply andNot_and_of_sub
    intro i hi
    simp [Nat.testBit_or, hi]
  · apply andNot_and_of_sub
    intro i hi
    simp [Nat.testBit_or, hi]
  · apply andNot_and_of_sub
    intro i hi
    simp [Nat.testBit_or, hi]
  · exact andNot_and_self _ _

theorem raw_profile_applied_witness :
    calm.ok calm.trace.length (Call.tcgetattr 0) = true
      ∧ ∃ applied b,
          newCalls calm (stk_enable_raw_mode linux (Module.init linux) calm 0).2.2
              = [(Call.tcgetattr 0, true), (Call.tcsetattr 0 applied, b)]
            ∧ applied = { cfmakeraw linux (calm.attrs 0) with
                          c_oflag := andNot (cfmakeraw linux (calm.attrs 0)).c_oflag linux.OPOST }
            ∧ applied.c_lflag &&& linux.ICANON = 0
            ∧ applied.c_lflag &&& linux.ECHO = 0
            ∧ applied.c_lflag &&& linux.ISIG = 0
            ∧ applied.c_oflag &&& linux.OPOST = 0
            ∧ applied = cfmakeraw linux (calm.attrs 0) :=
  ⟨rfl, raw_profile_applied linux (Module.init linux) calm 0 rfl⟩

/-- C8, as the claim states it, fails: on a terminal whose driver reports no geometry the
query succeeds, so `stk_get_winsize` returns `0`, and it reports zero columns and zero rows. -/
theorem winsize_zero_reported :
    (stk_get_winsize unsized 0 (some 7) (some 9)).1 = 0
      ∧ (stk_get_winsize unsized 0 (some 7) (some 9)).2.1 = some 0
      ∧ (stk_get_winsize unsized 0 (some 7) (some 9)).2.2.1 = some 0
      ∧ ¬ (∀ (w : World) (fd c r c1 r1 : Int),
            (stk_get_winsize w fd (some c) (some r)).1 = 0 →
            (stk_get_winsize w fd (some c) (some r)).2.1 = some c1 →
            (stk_get_winsize w fd (some c) (some r)).2.2.1 = some r1 →
            0 < c1 ∧ 0 < r1) := by
  refine ⟨by decide, by decide, by decide, ?_⟩
  intro h
  have h0 := h unsized 0 7 9 0 0 (by decide) (by decide) (by decide)
  exact absurd h0.1 (by decide)

/-- C8 (geometry, amended): `stk_get_winsize` issues the geometry query and nothing else.
When the query succeeds the call returns `0` and each non-null out-parameter receives the
driver's `ws_col`, respectively `ws_row`, a value that is never negative (and may be zero);
a null out-parameter stays null.  When the query fails the call returns `-1` and both
out-parameters keep what they held. -/
theorem winsize_reports_driver (w : World) (fd : Int) (cols rows : Option Int) :
    (w.ok w.trace.length (Call.tiocgwinsz fd) = true →
        (stk_get_winsize w fd cols rows).1 = 0
          ∧ (stk_get_winsize w fd cols rows).2.1
              = cols.map (fun _ => ((w.winsize fd).ws_col : Int))
          ∧ (stk_get_winsize w fd cols rows).2.2.1
              = rows.map (fun _ => ((w.winsize fd).ws_row : Int))
          ∧ (∀ c, (stk_get_winsize w fd cols rows).2.1 = some c → 0 ≤ c)
          ∧ (∀ r, (stk_get_winsize w fd cols rows).2.2.1 = some r → 0 ≤ r))
      ∧ (w.ok w.trace.length (Call.tiocgwinsz fd) = false →
        (stk_get_winsize w fd cols rows).1 = -1
          ∧ (stk_get_winsize w fd cols rows).2.1 = cols
          ∧ (stk_get_winsize w fd cols rows).2.2.1 = rows)
      ∧ ((stk_get_winsize w fd cols rows).1 = 0 ↔
          w.ok w.trace.length (Call.tiocgwinsz fd) = true)
      ∧ newCalls w (stk_get_winsize w fd cols rows).2.2.2
          = [(Call.tiocgwinsz fd, w.ok w.trace.length (Call.tiocgwinsz fd))] := by
  cases h : w.ok w.trace.length (Call.tiocgwinsz fd)
  · simp [stk_get_winsize, ioctl_TIOCGWINSZ, h, newCalls]
  · simp only [stk_get_winsize, ioctl_TIOCGWINSZ, h, newCalls]
    refine ⟨fun _ => ⟨rfl, rfl, rfl, ?_, ?_⟩, ?_, ?_, ?_⟩
    · intro c hc
      cases cols with
      | none => simp at hc
      | some v =>
        simp at hc
        omega
    · intro r hr
      cases rows with
      | none => simp at hr
      | some v =>
        simp at hr
        omega
    · intro hf
      simp at hf
    · simp
    · simp

/-- C9 (fails iff a device call fails): each of the four functions returns `0` or `-1`,
returns `-1` exactly when one of the device calls it issued failed, and issues no device
call after a failed one (`FailStop`); the device calls it issues are appended to the trace;
and `stk_set_nonblocking` issues the flag read alone, with no flag write, when the flag read
fails. -/
theorem fail_stop (K : Consts) (m : Module) (w : World) (fd : Int) (cols rows : Option Int)
    (enable : Int) :
    (FailStop (stk_enable_raw_mode K m w fd).1 (newCalls w (stk_enable_raw_mode K m w fd).2.2)
        ∧ (stk_enable_raw_mode K m w fd).2.2.trace
            = w.trace ++ newCalls w (stk_enable_raw_mode K m w fd).2.2)
      ∧ (FailStop (stk_restore_mode m w fd).1 (newCalls w (stk_restore_mode m w fd).2.2)
        ∧ (stk_restore_mode m w fd).2.2.trace
            = w.trace ++ newCalls w (stk_restore_mode m w fd).2.2)
      ∧ (FailStop (stk_get_winsize w fd cols rows).1
            (newCalls w (stk_get_winsize w fd cols rows).2.2.2)
        ∧ (stk_get_winsize w fd cols rows).2.2.2.trace
            = w.trace ++ newCalls w (stk_get_winsize w fd cols rows).2.2.2)
      ∧ (FailStop (stk_set_nonblocking K w fd enable).1
            (newCalls w (stk_set_nonblocking K w fd enable).2)
        ∧ (stk_set_nonblocking K w fd enable).2.trace
            = w.trace ++ newCalls w (stk_set_nonblocking K w fd enable).2)
      ∧ (w.ok w.trace.length (Call.getfl fd) = false →
          newCalls w (stk_set_nonblocking K w fd enable).2 = [(Call.getfl fd, false)]) := by
  refine ⟨?_, ?_, ?_, ?_, ?_⟩
  · cases h : w.ok w.trace.length (Call.tcgetattr fd)
    · rw [enable_read_fails K m w fd h]
      simp [FailStop, newCalls]
    · rw [enable_read_ok K m w fd h]
      cases h2 : w.ok (w.trace.length + 1) (Call.tcsetattr fd (cfmakeraw K (w.attrs fd)))
      · simp [FailStop, newCalls, tcsetattr, h2]
      · simp [FailStop, newCalls, tcsetattr, h2]
  · by_cases hs : m.stk_saved = 0
    · simp [stk_restore_mode, hs, FailStop, newCalls]
    · cases h2 : w.ok w.trace.length (Call.tcsetattr fd m.stk_orig)
      · simp [stk_restore_mode, hs, FailStop, newCalls, tcsetattr, h2]
      · simp [stk_restore_mode, hs, FailStop, newCalls, tcsetattr, h2]
  · cases h : w.ok w.trace.length (Call.tiocgwinsz fd)
    · simp [stk_get_winsize, ioctl_TIOCGWINSZ, h, FailStop, newCalls]
    · simp [stk_get_winsize, ioctl_TIOCGWINSZ, h, FailStop, newCalls]
  · cases h : w.ok w.trace.length (Call.getfl fd)
    · simp [stk_set_nonblocking, fcntl_F_GETFL, h, FailStop, newCalls]
    · by_cases he : enable = 0
      · cases h2 : w.ok (w.trace.length + 1)
            (Call.setfl fd (andNot (w.flags fd) K.O_NONBLOCK))
        · simp [stk_set_nonblocking, fcntl_F_GETFL, fcntl_F_SETFL, h, he, h2, FailStop,
            newCalls]
        · simp [stk_set_nonblocking, fcntl_F_GETFL, fcntl_F_SETFL, h, he, h2, FailStop,
            newCalls]
      · cases h2 : w.ok (w.trace.length + 1) (Call.setfl fd (w.flags fd ||| K.O_NONBLOCK))
        · simp [stk_set_nonblocking, fcntl_F_GETFL, fcntl_F_SETFL, h, he, h2, FailStop,
            newCalls]
        · simp [stk_set_nonblocking, fcntl_F_GETFL, fcntl_F_SETFL, h, he, h2, FailStop,
            newCalls]
  · intro h
    simp [stk_set_nonblocking, fcntl_F_GETFL, h, newCalls]

/-- C7 (flag isolation): whenever the flag read of `stk_set_nonblocking` succeeds with the
word `f`, the call issues one flag write after it, and the word it writes has the
`O_NONBLOCK` bits set when `enable` is non-zero, cleared when `enable` is zero, and agrees
with `f` on every bit outside `O_NONBLOCK`.  Consequently, when every device call succeeds,
a second call with the same `enable` writes the same word as the first, and a call with a
non-zero `enable` followed by a call with `enable = 0`, on a word without `O_NONBLOCK`,
writes back the original word. -/
theorem flag_isolation (K : Consts) (w : World) (fd : Int) (enable : Int)
    (h : w.ok w.trace.length (Call.getfl fd) = true) :
    (∃ word b,
        newCalls w (stk_set_nonblocking K w fd enable).2
            = [(Call.getfl fd, true), (Call.setfl fd word, b)]
          ∧ (enable ≠ 0 → word &&& K.O_NONBLOCK = K.O_NONBLOCK)
          ∧ (enable = 0 → word &&& K.O_NONBLOCK = 0)
          ∧ (∀ i, K.O_NONBLOCK.testBit i = false → word.testBit i = (w.flags fd).testBit i))
      ∧ ((∀ n c, w.ok n c = true) →
          ∃ word,
            newCalls w
                (stk_set_nonblocking K (stk_set_nonblocking K w fd enable).2 fd enable).2
              = [(Call.getfl fd, true), (Call.setfl fd word, true),
                 (Call.getfl fd, true), (Call.setfl fd word, true)])
      ∧ ((∀ n c, w.ok n c = true) → enable ≠ 0 → w.flags fd &&& K.O_NONBLOCK = 0 →
          newCalls w (stk_set_nonblocking K (stk_set_nonblocking K w fd enable).2 fd 0).2
              = [(Call.getfl fd, true), (Call.setfl fd (w.flags fd ||| K.O_NONBLOCK), true),
                 (Call.getfl fd, true), (Call.setfl fd (w.flags fd), true)]
            ∧ (stk_set_nonblocking K (stk_set_nonblocking K w fd enable).2 fd 0).2.flags fd
                = w.flags fd) := by
  refine ⟨?_, ?_, ?_⟩
  · refine ⟨if enable ≠ 0 then w.flags fd ||| K.O_NONBLOCK
        else andNot (w.flags fd) K.O_NONBLOCK,
      w.ok (w.trace.length + 1) (Call.setfl fd (if enable ≠ 0 then w.flags fd ||| K.O_NONBLOCK
        else andNot (w.flags fd) K.O_NONBLOCK)), ?_, ?_, ?_, ?_⟩
    · rw [nonblocking_read_ok K w fd enable h]
      apply newCalls_append
      generalize (if enable ≠ 0 then w.flags fd ||| K.O_NONBLOCK
        else andNot (w.flags fd) K.O_NONBLOCK) = word
      cases h2 : w.ok (w.trace.length + 1) (Call.setfl fd word)
      · simp [fcntl_F_SETFL, h2]
      · simp [fcntl_F_SETFL, h2]
    · intro he
      rw [if_pos he]
      exact or_and_self _ _
    · intro he
      rw [if_neg (not_not.mpr he)]
      exact andNot_and_self _ _
    · intro i hi
      by_cases he : enable = 0
      · rw [if_neg (not_not.mpr he), testBit_andNot, hi]
        simp
      · rw [if_pos he, Nat.testBit_or, hi]
        simp
  · intro hok
    refine ⟨if enable ≠ 0 then w.flags fd ||| K.O_NONBLOCK
      else andNot (w.flags fd) K.O_NONBLOCK, ?_⟩
    have e1 := nonblocking_all_ok K w fd enable hok
    have e2 := nonblocking_all_ok K (stk_set_nonblocking K w fd enable).2 fd enable
      (by rw [e1]; exact hok)
    rw [e2]
    apply newCalls_append
    rw [e1]
    by_cases he : enable = 0
    · simp [he, andNot_andNot]
    · simp [he, or_or_self]
  · intro hok he hf
    have e1 := nonblocking_all_ok K w fd enable hok
    have e2 := nonblocking_all_ok K (stk_set_nonblocking K w fd enable).2 fd 0
      (by rw [e1]; exact hok)
    have e : andNot (w.flags fd ||| K.O_NONBLOCK) K.O_NONBLOCK = w.flags fd := by
      rw [andNot_or_self, andNot_of_and_eq_zero _ _ hf]
    rw [e2]
    refine ⟨?_, ?_⟩
    · apply newCalls_append
      rw [e1]
      simp [he, e]
    · rw [e1]
      simp [he, e]

theorem flag_isolation_witness :
    calm.ok calm.trace.length (Call.getfl 0) = true
      ∧ newCalls calm (stk_set_nonblocking linux (stk_set_nonblocking linux calm 0 1).2 0 0).2
          = [(Call.getfl 0, true), (Call.setfl 0 (calm.flags 0 ||| linux.O_NONBLOCK), true),
             (Call.getfl 0, true), (Call.setfl 0 (calm.flags 0), true)]
      ∧ (stk_set_nonblocking linux (stk_set_nonblocking linux calm 0 1).2 0 0).2.flags 0
          = calm.flags 0 :=
  ⟨rfl, (flag_isolation linux calm 0 1 rfl).2.2 (fun _ _ => rfl) (by decide) (by decide)⟩

/-- The state after a successful first read: the baseline is the record read, and it stays
so through any further calls. -/
theorem run_after_enable (K : Consts) (m : Module) (w : World) (fd : Int) (ops : List Op)
    (hm : m.stk_saved = 0) (h : w.ok w.trace.length (Call.tcgetattr fd) = true) :
    (run K ⟨m, w⟩ (Op.enable fd :: ops)).module = { stk_orig := w.attrs fd, stk_saved := 1 } := by
  have e : (step K ⟨m, w⟩ (Op.enable fd)).module = { stk_orig := w.attrs fd, stk_saved := 1 } :=
    enable_captures K m w fd hm h
  rw [run_cons, run_module_of_saved K _ ops (by rw [e]; simp), e]

/-- C1 (capture-once): starting with nothing saved, on a device whose attribute reads
succeed, after `N ≥ 1` calls of `stk_enable_raw_mode(fd)` and no other call, `stk_saved` is
`1` and `stk_orig` is the attribute record the device had at the first call; in particular,
whenever a later call (the one after the first `k` calls, `1 ≤ k < N`) reads back a record
that differs from it, the baseline is not that record. -/
theorem capture_once (K : Consts) (m : Module) (w : World) (fd : Int) (N : Nat)
    (hm : m.stk_saved = 0) (hN : 1 ≤ N)
    (hread : ∀ n f, w.ok n (Call.tcgetattr f) = true) :
    (run K ⟨m, w⟩ (List.replicate N (Op.enable fd))).module
        = { stk_orig := w.attrs fd, stk_saved := 1 }
      ∧ ∀ k, 1 ≤ k → k < N →
          (run K ⟨m, w⟩ (List.replicate k (Op.enable fd))).world.attrs fd ≠ w.attrs fd →
          (run K ⟨m, w⟩ (List.replicate N (Op.enable fd))).module.stk_orig
            ≠ (run K ⟨m, w⟩ (List.replicate k (Op.enable fd))).world.attrs fd := by
  obtain ⟨n, rfl⟩ : ∃ n, N = n + 1 := ⟨N - 1, by omega⟩
  have e := run_after_enable K m w fd (List.replicate n (Op.enable fd)) hm (hread _ _)
  rw [List.replicate_succ]
  refine ⟨e, ?_⟩
  intro k _ _ hk
  rw [e]
  exact fun hc => hk hc.symm

theorem capture_once_witness :
    (Module.init linux).stk_saved = 0 ∧ 1 ≤ 3
      ∧ (run linux ⟨Module.init linux, calm⟩ (List.replicate 3 (Op.enable 0))).module
          = { stk_orig := cooked, stk_saved := 1 }
      ∧ (run linux ⟨Module.init linux, calm⟩ (List.replicate 3 (Op.enable 0))).module.stk_orig
          ≠ (run linux ⟨Module.init linux, calm⟩ (List.replicate 1 (Op.enable 0))).world.attrs 0 :=
  ⟨rfl, by decide,
    (capture_once linux (Module.init linux) calm 0 3 rfl (by decide) (fun _ _ => rfl)).1,
    (capture_once linux (Module.init linux) calm 0 3 rfl (by decide) (fun _ _ => rfl)).2 1
      (by decide) (by decide) (by decide)⟩

/-- C2 (restore applies the original baseline): starting with nothing saved on a device whose
attribute record is `A`, with every device call succeeding, after `stk_enable_raw_mode(fd)`
followed by any sequence of calls of the shim (further enables and restores in any order and
number among them), a call of `stk_restore_mode(fd)` returns `0` and leaves the attribute
record of the device equal to `A`.  In particular enable then restore yields `A`, and so does
each of two restores in succession. -/
theorem restore_applies_baseline (K : Consts) (m : Module) (w : World) (fd : Int)
    (ops : List Op) (hm : m.stk_saved = 0) (hok : ∀ n c, w.ok n c = true) :
    (run K ⟨m, w⟩ (Op.enable fd :: ops ++ [Op.restore fd])).world.attrs fd = w.attrs fd
      ∧ (stk_restore_mode (run K ⟨m, w⟩ (Op.enable fd :: ops)).module
          (run K ⟨m, w⟩ (Op.enable fd :: ops)).world fd).1 = 0
      ∧ (run K ⟨m, w⟩ [Op.enable fd, Op.restore fd]).world.attrs fd = w.attrs fd
      ∧ (run K ⟨m, w⟩ [Op.enable fd, Op.restore fd, Op.restore fd]).world.attrs fd
          = w.attrs fd := by
  have key : ∀ l : List Op,
      (stk_restore_mode (run K ⟨m, w⟩ (Op.enable fd :: l)).module
          (run K ⟨m, w⟩ (Op.enable fd :: l)).world fd).1 = 0
        ∧ (run K ⟨m, w⟩ (Op.enable fd :: l ++ [Op.restore fd])).world.attrs fd = w.attrs fd := by
    intro l
    have e := run_after_enable K m w fd l hm (hok _ _)
    have ho : (run K ⟨m, w⟩ (Op.enable fd :: l)).world.ok = w.ok := run_ok K _ _
    have hr := restore_applies (run K ⟨m, w⟩ (Op.enable fd :: l)).module
      (run K ⟨m, w⟩ (Op.enable fd :: l)).world fd (by rw [e]; simp) (by rw [ho]; exact hok _ _)
    refine ⟨hr.1, ?_⟩
    rw [run_append]
    show (stk_restore_mode (run K ⟨m, w⟩ (Op.enable fd :: l)).module
      (run K ⟨m, w⟩ (Op.enable fd :: l)).world fd).2.2.attrs fd = w.attrs fd
    rw [hr.2, e]
  exact ⟨(key ops).2, (key ops).1, (key []).2, (key [Op.restore fd]).2⟩

theorem restore_applies_baseline_witness :
    (Module.init linux).stk_saved = 0
      ∧ (run linux ⟨Module.init linux, calm⟩
          (Op.enable 0 :: [Op.enable 0, Op.restore 0, Op.enable 0] ++ [Op.restore 0])).world.attrs 0
          = cooked :=
  ⟨rfl, (restore_applies_baseline linux (Module.init linux) calm 0
    [Op.enable 0, Op.restore 0, Op.enable 0] rfl (fun _ _ => rfl)).1⟩

/-- C10 (stale baseline on re-entry): for attribute records `A ≠ B`, starting with nothing
saved and with every device call succeeding, the run (device at `A`; enable; restore; the
device of the second session holds `B`; enable; restore) ends with that device at `A` and
not at `B`: the second enable does not capture `B`, the baseline is still `A` after it and
at the end, and `stk_saved` is still `1`. -/
theorem stale_baseline_on_reentry (K : Consts) (m : Module) (w : World) (fd1 fd2 : Int)
    (A B : Termios) (hm : m.stk_saved = 0) (hok : ∀ n c, w.ok n c = true)
    (hA : w.attrs fd1 = A) (hAB : A ≠ B) :
    (externalSet (run K ⟨m, w⟩ [Op.enable fd1, Op.restore fd1]) fd2 B).world.attrs fd2 = B
      ∧ (reentry K m w fd1 fd2 B).world.attrs fd2 = A
      ∧ (reentry K m w fd1 fd2 B).world.attrs fd2 ≠ B
      ∧ (step K (externalSet (run K ⟨m, w⟩ [Op.enable fd1, Op.restore fd1]) fd2 B)
          (Op.enable fd2)).module = { stk_orig := A, stk_saved := 1 }
      ∧ (reentry K m w fd1 fd2 B).module = { stk_orig := A, stk_saved := 1 } := by
  unfold reentry
  have e1 : (run K ⟨m, w⟩ [Op.enable fd1, Op.restore fd1]).module
      = { stk_orig := A, stk_saved := 1 } := by
    rw [run_after_enable K m w fd1 _ hm (hok _ _), hA]
  have o1 : (run K ⟨m, w⟩ [Op.enable fd1, Op.restore fd1]).world.ok = w.ok := run_ok K _ _
  generalize run K ⟨m, w⟩ [Op.enable fd1, Op.restore fd1] = s1 at e1 o1 ⊢
  have e2 : (externalSet s1 fd2 B).module = { stk_orig := A, stk_saved := 1 } := e1
  have o2 : (externalSet s1 fd2 B).world.ok = w.ok := o1
  have a2 : (externalSet s1 fd2 B).world.attrs fd2 = B := by simp [externalSet]
  generalize externalSet s1 fd2 B = s2 at e2 o2 a2 ⊢
  have e3 : (step K s2 (Op.enable fd2)).module = { stk_orig := A, stk_saved := 1 } := by
    rw [step_module_of_saved K s2 _ (by rw [e2]; simp), e2]
  have o3 : (step K s2 (Op.enable fd2)).world.ok = w.ok := by rw [step_ok, o2]
  have hr := restore_applies (step K s2 (Op.enable fd2)).module
    (step K s2 (Op.enable fd2)).world fd2 (by rw [e3]; simp) (by rw [o3]; exact hok _ _)
  have e4 : (run K s2 [Op.enable fd2, Op.restore fd2]).module
      = { stk_orig := A, stk_saved := 1 } := by
    rw [run_module_of_saved K s2 _ (by rw [e2]; simp), e2]
  have a4 : (run K s2 [Op.enable fd2, Op.restore fd2]).world.attrs fd2 = A := by
    show (stk_restore_mode (step K s2 (Op.enable fd2)).module
      (step K s2 (Op.enable fd2)).world fd2).2.2.attrs fd2 = A
    rw [hr.2, e3]
  exact ⟨a2, a4, by rw [a4]; exact hAB, e3, e4⟩

theorem stale_baseline_on_reentry_witness :
    (Module.init linux).stk_saved = 0 ∧ calm.attrs 0 = cooked ∧ cooked ≠ quiet
      ∧ (reentry linux (Module.init linux) calm 0 0 quiet).world.attrs 0 = cooked
      ∧ (reentry linux (Module.init linux) calm 0 0 quiet).world.attrs 0 ≠ quiet :=
  ⟨rfl, rfl, by decide,
    (stale_baseline_on_reentry linux (Module.init linux) calm 0 0 cooked quiet rfl
      (fun _ _ => rfl) rfl (by decide)).2.1,
    (stale_baseline_on_reentry linux (Module.init linux) calm 0 0 cooked quiet rfl
      (fun _ _ => rfl) rfl (by decide)).2.2.1⟩

/-- C4, as the claim states it, fails: when the attribute read of the only
`stk_enable_raw_mode` call succeeds and its attribute write fails, the call returns `-1`, so
no enable call has returned success, and yet `stk_saved` is `1`; the following
`stk_restore_mode` then issues an attribute write, and it changes the device when the
device's record has moved away from the captured one in the meantime. -/
theorem baseline_present_after_failed_apply :
    (stk_enable_raw_mode linux (Module.init linux) flaky 0).1 = -1
      ∧ (step linux ⟨Module.init linux, flaky⟩ (Op.enable 0)).module.stk_saved = 1
      ∧ newCalls (step linux ⟨Module.init linux, flaky⟩ (Op.enable 0)).world
          (stk_restore_mode (step linux ⟨Module.init linux, flaky⟩ (Op.enable 0)).module
            (step linux ⟨Module.init linux, flaky⟩ (Op.enable 0)).world 0).2.2
          = [(Call.tcsetattr 0 cooked, true)]
      ∧ (externalSet (step linux ⟨Module.init linux, flaky⟩ (Op.enable 0)) 0 quiet).world.attrs 0
          = quiet
      ∧ (step linux (externalSet (step linux ⟨Module.init linux, flaky⟩ (Op.enable 0)) 0 quiet)
          (Op.restore 0)).world.attrs 0 = cooked := by
  refine ⟨by decide, by decide, by decide, by decide, by decide⟩

/-- C4 (baseline absent until the first successful read, amended): starting with nothing
saved, after any sequence of calls of the four functions during which no attribute read
succeeded (so no `stk_enable_raw_mode` call got past its read), the statics are what they
were, `stk_saved` is still `0`, and a following `stk_restore_mode` returns `0` and leaves
the whole environment untouched: it issues no device call and changes no attribute record. -/
theorem baseline_absent_until_read (K : Consts) (m : Module) (w : World) (ops : List Op)
    (fd : Int) (hm : m.stk_saved = 0)
    (hno : ∀ f, (Call.tcgetattr f, true) ∉ newCalls w (run K ⟨m, w⟩ ops).world) :
    (run K ⟨m, w⟩ ops).module = m
      ∧ (run K ⟨m, w⟩ ops).module.stk_saved = 0
      ∧ stk_restore_mode (run K ⟨m, w⟩ ops).module (run K ⟨m, w⟩ ops).world fd
          = (0, (run K ⟨m, w⟩ ops).module, (run K ⟨m, w⟩ ops).world) := by
  obtain ⟨l, ht, hmod⟩ := run_trace K ⟨m, w⟩ ops
  have hl : newCalls w (run K ⟨m, w⟩ ops).world = l := newCalls_append _ _ _ ht
  rw [hl] at hno
  have e : (run K ⟨m, w⟩ ops).module = m := hmod hno
  refine ⟨e, by rw [e]; exact hm, ?_⟩
  simp [stk_restore_mode, e, hm]

theorem baseline_absent_until_read_witness :
    (Module.init linux).stk_saved = 0
      ∧ (run linux ⟨Module.init linux, detached⟩
          [Op.enable 0, Op.restore 0, Op.nonblocking 0 1, Op.enable 0]).module.stk_saved = 0 :=
  ⟨rfl, (baseline_absent_until_read linux (Module.init linux) detached
    [Op.enable 0, Op.restore 0, Op.nonblocking 0 1, Op.enable 0] 0 rfl (by
      have hl : newCalls detached (run linux ⟨Module.init linux, detached⟩
          [Op.enable 0, Op.restore 0, Op.nonblocking 0 1, Op.enable 0]).world
          = [(Call.tcgetattr 0, false), (Call.getfl 0, false), (Call.tcgetattr 0, false)] := by
        decide
      rw [hl]
      intro f
      simp)).2.1⟩

theorem winsize_reports_driver_witness :
    calm.ok calm.trace.length (Call.tiocgwinsz 0) = true
      ∧ (stk_get_winsize calm 0 (some 7) none).1 = 0
      ∧ (stk_get_winsize calm 0 (some 7) none).2.1 = some 80
      ∧ (stk_get_winsize calm 0 (some 7) none).2.2.1 = none :=
  ⟨rfl, ((winsize_reports_driver calm 0 (some 7) none).1 rfl).1,
    ((winsize_reports_driver calm 0 (some 7) none).1 rfl).2.1,
    ((winsize_reports_driver calm 0 (some 7) none).1 rfl).2.2.1⟩

theorem fail_stop_witness :
    detached.ok detached.trace.length (Call.getfl 0) = false
      ∧ newCalls detached (stk_set_nonblocking linux detached 0 1).2 = [(Call.getfl 0, false)] :=
  ⟨rfl, (fail_stop linux (Module.init linux) detached 0 none none 1).2.2.2.2 rfl⟩

end TermiosShim
